import Mathlib

/-!
# Verification of the bowls-tracker analytics core

A shallow embedding of the analytics module of the bowls performance
tracker (`getPlayerStats`, `getGameSummaries`, the form indicator of the
comparison table / player dashboard, and the analytics cache), together
with theorems settling the specification claims about it.

Modelling conventions:

* JavaScript numbers are modelled as `ℚ` (scores, distances, averages);
  `Math.sqrt` is modelled as `Real.sqrt`, so the `consistency` statistic
  lives in `ℝ`.
* A record field that may be `undefined`/missing is an `Option`.
* The JavaScript idiom `a || b` on numbers (which falls through on `0`)
  is `jsOrQ`/`jsOrN`/`jsOrS`; the idiom `a !== undefined ? a : (b || 0)`
  is modelled by explicit matches.
* `Array.prototype.sort` with a comparator derived from a numeric key is
  a stable sort; it is modelled by `List.insertionSort` with the
  corresponding total preorder (`keyGE` for descending comparators such
  as `(a, b) => b.avg - a.avg`, `keyLE` for ascending ones).
  Match dates are idealised as integers ordered like the corresponding
  `Date` values (a missing date is treated as the epoch).
* `Math.round(x * 100) / 100` is `round2` (floor of `x * 100 + 1/2`,
  which is exactly JavaScript's round-half-up behaviour).
-/

namespace BowlsTracker

/-- JS `a || d` for an optional numeric value: `0` and `undefined` are falsy. -/
def jsOrQ (a : Option ℚ) (d : ℚ) : ℚ :=
  match a with
  | some v => if v = 0 then d else v
  | none => d

/-- JS `a || d` for an optional natural value: `0` and `undefined` are falsy. -/
def jsOrN (a : Option Nat) (d : Nat) : Nat :=
  match a with
  | some v => if v = 0 then d else v
  | none => d

/-- JS `a || d` for an optional string: `''` and `undefined` are falsy. -/
def jsOrS (a : Option String) (d : String) : String :=
  match a with
  | some v => if v = "" then d else v
  | none => d

/-- `Math.round(q * 100) / 100`: rounding to two decimals, halves up. -/
def round2 (q : ℚ) : ℚ := (⌊q * 100 + 1/2⌋ : ℚ) / 100

/-- `Math.round(x * 100) / 100` on a real value (used after `Math.sqrt`). -/
noncomputable def round2R (x : ℝ) : ℝ := (⌊x * 100 + 1/2⌋ : ℝ) / 100

/-- A recorded bowl (one scored attempt), from the fields the analytics
module reads. `score`/`scoreValue` and `distance`/`distanceInFeet` are the
two field aliases the code probes. -/
structure Bowl where
  gameId : String
  playerId : String
  team : String
  endNumber : Nat
  score : Option ℚ
  scoreValue : Option ℚ
  distance : Option ℚ
  distanceInFeet : Option ℚ
  hand : Option String
  position : Option String
  resultCategory : Option String
  direction : Option String
  deriving DecidableEq

/-- A recorded game (match), from the fields the analytics module reads.
`date` is an integer timestamp ordered like the JS `Date` it stands for. -/
structure Game where
  id : String
  tournamentId : Option String
  tournamentName : Option String
  gameNumber : Option Nat
  format : String
  gameType : Option String
  date : Int
  players : Option (List String)
  yourPlayers : Option (List String)
  opponentPlayers : Option (List String)
  endCount : Option Nat
  totalEnds : Option Nat
  currentEnd : Option Nat
  completed : Option Bool
  notes : Option String
  gameNotes : Option String
  deriving DecidableEq

/-- `b.scoreValue || b.score || 0` — the effective score used for
averages, ends, clutch and top-performer totals. -/
def effScoreOr (b : Bowl) : ℚ := jsOrQ b.scoreValue (jsOrQ b.score 0)

/-- `b.scoreValue !== undefined ? b.scoreValue : (b.score || 0)` — the
effective score used for the score distribution and the distance zones. -/
def effScoreTern (b : Bowl) : ℚ :=
  match b.scoreValue with
  | some v => v
  | none => jsOrQ b.score 0

/-- `b.distance || b.distanceInFeet || 0`. -/
def distOf (b : Bowl) : ℚ := jsOrQ b.distance (jsOrQ b.distanceInFeet 0)

/-- `[...new Set(l)]` — deduplication keeping the first occurrence of
each element, in insertion order. -/
def firstDedup {α : Type} [DecidableEq α] (l : List α) : List α :=
  l.foldl (fun acc x => if x ∈ acc then acc else acc ++ [x]) []

/-- `allGames.find(g => g.id === gid)`. -/
def findGame (games : List Game) (gid : String) : Option Game :=
  games.find? (fun g => decide (g.id = gid))

/-- `game.endCount || game.totalEnds || 21`. -/
def totalEndsOf (g : Game) : Nat := jsOrN g.endCount (jsOrN g.totalEnds 21)

/-- The descending-key order corresponding to a JS comparator
`(a, b) => key(b) - key(a)`: `a` may precede `b` iff `key b ≤ key a`. -/
def keyGE {α : Type} {β : Type} [LinearOrder β] (f : α → β) (a b : α) : Prop :=
  f b ≤ f a

/-- The ascending-key order corresponding to a JS comparator
`(a, b) => key(a) - key(b)`: `a` may precede `b` iff `key a ≤ key b`. -/
def keyLE {α : Type} {β : Type} [LinearOrder β] (f : α → β) (a b : α) : Prop :=
  f a ≤ f b

instance {α β : Type} [LinearOrder β] (f : α → β) : DecidableRel (keyGE f) :=
  fun a b => inferInstanceAs (Decidable (f b ≤ f a))

instance {α β : Type} [LinearOrder β] (f : α → β) : DecidableRel (keyLE f) :=
  fun a b => inferInstanceAs (Decidable (f a ≤ f b))

instance {α β : Type} [LinearOrder β] (f : α → β) : IsTotal α (keyGE f) :=
  ⟨fun a b => le_total (f b) (f a)⟩

instance {α β : Type} [LinearOrder β] (f : α → β) : IsTrans α (keyGE f) :=
  ⟨fun _ _ _ h1 h2 => le_trans h2 h1⟩

instance {α β : Type} [LinearOrder β] (f : α → β) : IsTotal α (keyLE f) :=
  ⟨fun a b => le_total (f a) (f b)⟩

instance {α β : Type} [LinearOrder β] (f : α → β) : IsTrans α (keyLE f) :=
  ⟨fun _ _ _ h1 h2 => le_trans h1 h2⟩

/-! ## getPlayerStats: the filtering prelude -/

/-- The matching attempts of `getPlayerStats`: the attempt log, filtered
by the optional game id, then by `b.playerId === playerName && b.team === 'yours'`. -/
def matchingBowls (playerName : String) (filterGameId : Option String)
    (allBowls : List Bowl) : List Bowl :=
  let filtered : List Bowl :=
    match filterGameId with
    | some gid => allBowls.filter (fun b => decide (b.gameId = gid))
    | none => allBowls
  filtered.filter (fun b => decide (b.playerId = playerName ∧ b.team = "yours"))

/-- `playerBowls.filter(b => b.score !== undefined && b.score !== null)`. -/
def scoredOf (playerBowls : List Bowl) : List Bowl :=
  playerBowls.filter (fun b => b.score.isSome)

/-- The list of effective scores of the scored attempts. -/
def scoresOf (playerBowls : List Bowl) : List ℚ :=
  (scoredOf playerBowls).map effScoreOr

/-- Arithmetic mean of a list of scores, `0` for the empty list
(`scoredBowls.length > 0 ? sum / length : 0`). -/
def meanQ (l : List ℚ) : ℚ :=
  if l.length = 0 then 0 else l.sum / l.length

/-- Population variance of a list of scores, `0` for the empty list
(`scores.length > 0 ? Σ (s - mean)² / length : 0`). -/
def varQ (l : List ℚ) : ℚ :=
  if l.length = 0 then 0
  else ((l.map (fun s => (s - meanQ l) ^ 2)).sum) / l.length

/-- `consistency`: `Math.round(Math.sqrt(variance) * 100) / 100`. -/
noncomputable def consistencyOf (l : List ℚ) : ℝ :=
  round2R (Real.sqrt ((varQ l : ℚ) : ℝ))

/-- One count per score value: `scoreDistribution[s]`, accumulated over
the *scored* attempts (`scoredBowls.forEach`). -/
def scoreDistOf (playerBowls : List Bowl) (s : ℚ) : Nat :=
  ((scoredOf playerBowls).filter (fun b => decide (effScoreTern b = s))).length

/-! ## getPlayerStats: distance zones and histograms -/

/-- The three distance zones of `distanceSuccessRates`. -/
inductive Zone where
  | close
  | medium
  | far
  deriving DecidableEq

/-- Zone assignment: `distCm = dist * 30`; `< 20` close, `< 50` medium,
otherwise far. -/
def zoneOf (b : Bowl) : Zone :=
  if distOf b * 30 < 20 then Zone.close
  else if distOf b * 30 < 50 then Zone.medium
  else Zone.far

/-- `distanceZones[zone].total`. -/
def zoneTotal (playerBowls : List Bowl) (z : Zone) : Nat :=
  (playerBowls.filter (fun b => decide (zoneOf b = z))).length

/-- `distanceZones[zone].good`: attempts of the zone with effective score `≥ 3`. -/
def zoneGood (playerBowls : List Bowl) (z : Zone) : Nat :=
  ((playerBowls.filter (fun b => decide (zoneOf b = z))).filter
    (fun b => decide (3 ≤ effScoreTern b))).length

/-- `distanceSuccessRates[zone] = total > 0 ? good / total * 100 : 0`. -/
def distanceSuccessRates (playerBowls : List Bowl) (z : Zone) : ℚ :=
  if zoneTotal playerBowls z = 0 then 0
  else (zoneGood playerBowls z : ℚ) / (zoneTotal playerBowls z : ℚ) * 100

/-- The `bowlDistribution` histogram (raw distance in feet). -/
structure BowlDist where
  short : Nat
  medium : Nat
  long : Nat
  deriving DecidableEq

/-- `dist < 0.67` short, `dist < 1.67` medium, otherwise long. -/
def bowlDistributionOf (playerBowls : List Bowl) : BowlDist :=
  { short := (playerBowls.filter (fun b => decide (distOf b < 67/100))).length
    medium := (playerBowls.filter
      (fun b => decide (¬ distOf b < 67/100 ∧ distOf b < 167/100))).length
    long := (playerBowls.filter (fun b => decide (167/100 ≤ distOf b))).length }

/-- The `handDistribution` counts. -/
structure HandDist where
  forehand : Nat
  backhand : Nat
  deriving DecidableEq

/-- `hand = b.hand || 'forehand'`; `backhand` counts exact matches, every
other value counts as forehand. -/
def handDistributionOf (playerBowls : List Bowl) : HandDist :=
  { forehand := (playerBowls.filter
      (fun b => decide (¬ jsOrS b.hand "forehand" = "backhand"))).length
    backhand := (playerBowls.filter
      (fun b => decide (jsOrS b.hand "forehand" = "backhand"))).length }

/-- The `directionBreakdown` counts; unrecognised tags are dropped. -/
structure DirBreak where
  short : Nat
  jackHigh : Nat
  past : Nat
  deriving DecidableEq

/-- `dir = b.resultCategory || b.direction || ''`. -/
def dirOf (b : Bowl) : String := jsOrS b.resultCategory (jsOrS b.direction "")

/-- Counts of `'Short'`, `'Jack High'` and `'Past'` result tags. -/
def directionBreakdownOf (playerBowls : List Bowl) : DirBreak :=
  { short := (playerBowls.filter (fun b => decide (dirOf b = "Short"))).length
    jackHigh := (playerBowls.filter (fun b => decide (dirOf b = "Jack High"))).length
    past := (playerBowls.filter (fun b => decide (dirOf b = "Past"))).length }

/-! ## getPlayerStats: per-game performance and best/worst ends -/

/-- One entry of `gamePerformance`. -/
structure GamePerf where
  gameId : String
  gameName : String
  date : Option Int
  avgScore : ℚ
  bowlCount : Nat
  format : String
  deriving DecidableEq

/-- The `gamePerformance` array: one entry per distinct game id of the
matching attempts (first-encounter order), sorted ascending by date. -/
def gamePerformanceOf (playerBowls : List Bowl) (allGames : List Game) : List GamePerf :=
  let gameIds := firstDedup (playerBowls.map (fun b => b.gameId))
  let entries := gameIds.map (fun gid =>
    let gameBowls := playerBowls.filter (fun b => decide (b.gameId = gid))
    let game := findGame allGames gid
    let gameScored := gameBowls.filter (fun b => b.score.isSome)
    let gameAvg : ℚ :=
      if gameScored.length = 0 then 0
      else (gameScored.map effScoreOr).sum / gameScored.length
    { gameId := gid
      gameName :=
        match game with
        | some g => "Game " ++ toString (jsOrN g.gameNumber (gameIds.indexOf gid + 1))
        | none => gid
      date := game.map (fun g => g.date)
      avgScore := gameAvg
      bowlCount := gameBowls.length
      format :=
        match game with
        | some g => g.format
        | none => "" })
  List.insertionSort (keyLE (fun e : GamePerf => e.date.getD 0)) entries

/-- An aggregated end: key `(gameId, endNumber)` with accumulated score
total, attempt count, and (for `endAvgs`) the mean. -/
structure EndAvg where
  gameId : String
  endNumber : Nat
  total : ℚ
  count : Nat
  avg : ℚ
  deriving DecidableEq

/-- The `endScores` accumulator: fold over the matching attempts; a new
`(gameId, endNumber)` key is appended, an existing one is updated in
place (JS object insertion order). The `avg` field stays `0` here. -/
def endScoresList (playerBowls : List Bowl) : List EndAvg :=
  playerBowls.foldl (fun acc b =>
    if acc.any (fun e => decide (e.gameId = b.gameId ∧ e.endNumber = b.endNumber)) then
      acc.map (fun e =>
        if e.gameId = b.gameId ∧ e.endNumber = b.endNumber then
          { e with total := e.total + effScoreOr b, count := e.count + 1 }
        else e)
    else
      acc ++ [{ gameId := b.gameId, endNumber := b.endNumber
                total := effScoreOr b, count := 1, avg := 0 }]) []

/-- `endAvgs`: every accumulated end with its mean
(`count > 0 ? total / count : 0`). -/
def endAvgsOf (playerBowls : List Bowl) : List EndAvg :=
  (endScoresList playerBowls).map (fun e =>
    { e with avg := if 0 < e.count then e.total / (e.count : ℚ) else 0 })

/-- `endAvgs.sort((a, b) => b.avg - a.avg)`: stable sort, descending mean. -/
def sortedEndAvgsOf (playerBowls : List Bowl) : List EndAvg :=
  List.insertionSort (keyGE (fun e : EndAvg => e.avg)) (endAvgsOf playerBowls)

/-- `bestEnd = endAvgs[0] || null`. -/
def bestEndOf (playerBowls : List Bowl) : Option EndAvg :=
  (sortedEndAvgsOf playerBowls).head?

/-- `worstEnd = endAvgs[endAvgs.length - 1] || null`. -/
def worstEndOf (playerBowls : List Bowl) : Option EndAvg :=
  (sortedEndAvgsOf playerBowls).getLast?

/-! ## getPlayerStats: clutch performance -/

/-- An attempt is clutch when its game is found and
`b.endNumber > totalEnds - 3` (JS arithmetic, so over `ℤ`). -/
def isClutch (allGames : List Game) (b : Bowl) : Bool :=
  match findGame allGames b.gameId with
  | some g => decide ((totalEndsOf g : Int) - 3 < (b.endNumber : Int))
  | none => false

/-- `clutchBowls`: the matching attempts in the final 3 ends of their game. -/
def clutchBowlsOf (playerBowls : List Bowl) (allGames : List Game) : List Bowl :=
  playerBowls.filter (isClutch allGames)

/-- `clutchScored`: clutch attempts with a defined score. -/
def clutchScoredOf (playerBowls : List Bowl) (allGames : List Game) : List Bowl :=
  (clutchBowlsOf playerBowls allGames).filter (fun b => b.score.isSome)

/-- The rounded `clutchAvg` statistic
(`clutchScored.length > 0 ? sum / length : 0`, then rounded to 2 decimals). -/
def clutchAvgOf (playerBowls : List Bowl) (allGames : List Game) : ℚ :=
  let cs := clutchScoredOf playerBowls allGames
  round2 (if cs.length = 0 then 0 else (cs.map effScoreOr).sum / cs.length)

/-! ## getPlayerStats: assembly -/

/-- The statistics record assembled by `getPlayerStats`. -/
structure Stats where
  playerName : String
  totalBowls : Nat
  gamesPlayed : Nat
  positions : List (Option String)
  avgScore : ℚ
  scoreDistribution : ℚ → Nat
  distanceSuccessRates : Zone → ℚ
  bowlDistribution : BowlDist
  handDistribution : HandDist
  gamePerformance : List GamePerf
  bestEnd : Option EndAvg
  worstEnd : Option EndAvg
  consistency : ℝ
  clutchAvg : ℚ
  directionBreakdown : DirBreak

/-- The pure computation of `getPlayerStats` (the §4.1
`computePlayerStatistics` contract): `null` when no attempt matches,
otherwise the full statistics record. -/
noncomputable def computePlayerStatistics (playerName : String) (allBowls : List Bowl)
    (allGames : List Game) (filterGameId : Option String) : Option Stats :=
  let playerBowls := matchingBowls playerName filterGameId allBowls
  if playerBowls.length = 0 then none
  else some
    { playerName := playerName
      totalBowls := playerBowls.length
      gamesPlayed := (firstDedup (playerBowls.map (fun b => b.gameId))).length
      positions := firstDedup (playerBowls.map (fun b => b.position))
      avgScore := round2 (meanQ (scoresOf playerBowls))
      scoreDistribution := scoreDistOf playerBowls
      distanceSuccessRates := distanceSuccessRates playerBowls
      bowlDistribution := bowlDistributionOf playerBowls
      handDistribution := handDistributionOf playerBowls
      gamePerformance := gamePerformanceOf playerBowls allGames
      bestEnd := bestEndOf playerBowls
      worstEnd := worstEndOf playerBowls
      consistency := consistencyOf (scoresOf playerBowls)
      clutchAvg := clutchAvgOf playerBowls allGames
      directionBreakdown := directionBreakdownOf playerBowls }

/-! ## The analytics cache (`analyticsCache`, `invalidateAnalyticsCache`) -/

/-- The in-memory analytics cache, modelled as an association list in
insertion order. -/
abbrev Cache : Type := List (String × Stats)

/-- `'player_' + playerName + (filterGameId ? '_game_' + filterGameId : '')`. -/
def cacheKey (playerName : String) (filterGameId : Option String) : String :=
  "player_" ++ playerName ++
    (match filterGameId with
     | some gid => "_game_" ++ gid
     | none => "")

/-- `analyticsCache[cacheKey]` (stored stats objects are always truthy). -/
def lookupCache (c : Cache) (k : String) : Option Stats :=
  (List.find? (fun e => decide (e.1 = k)) c).map (fun e => e.2)

/-- `invalidateAnalyticsCache()`: resets the cache to `{}`. -/
def invalidateAnalyticsCache (_ : Cache) : Cache := []

/-- The stateful `getPlayerStats`: consult the cache, recompute on a
miss, and memoize only a non-null result. -/
noncomputable def getPlayerStats (c : Cache) (playerName : String)
    (filterGameId : Option String) (allBowls : List Bowl) (allGames : List Game) :
    Option Stats × Cache :=
  match lookupCache c (cacheKey playerName filterGameId) with
  | some s => (some s, c)
  | none =>
    match computePlayerStatistics playerName allBowls allGames filterGameId with
    | none => (none, c)
    | some s => (some s, c ++ [(cacheKey playerName filterGameId, s)])

/-! ## getGameSummaries -/

/-- One summary row of `getGameSummaries`. -/
structure Summary where
  id : String
  tournamentId : Option String
  tournamentName : String
  gameNumber : Nat
  format : String
  gameType : String
  date : Int
  players : List String
  opponentName : String
  totalEnds : Nat
  currentEnd : Nat
  totalBowls : Nat
  avgScore : ℚ
  topPerformer : String
  topAvg : ℚ
  completed : Bool
  notes : String
  deriving DecidableEq

/-- One aggregated own-team participant of a game:
`playerScores[name] = { total, count }`, in first-encounter order. -/
structure PlayerScore where
  name : String
  total : ℚ
  count : Nat
  deriving DecidableEq

/-- The `playerScores` accumulator, folded over the own-team attempts of
a game in order (JS object insertion order). -/
def playerScoresList (yourBowls : List Bowl) : List PlayerScore :=
  yourBowls.foldl (fun acc b =>
    if acc.any (fun p => decide (p.name = b.playerId)) then
      acc.map (fun p =>
        if p.name = b.playerId then
          { p with total := p.total + effScoreOr b, count := p.count + 1 }
        else p)
    else
      acc ++ [{ name := b.playerId, total := effScoreOr b, count := 1 }]) []

/-- Each aggregated participant with their mean
(`data.count > 0 ? data.total / data.count : 0`), in iteration order. -/
def playerAvgsOf (yourBowls : List Bowl) : List (String × ℚ) :=
  (playerScoresList yourBowls).map (fun p =>
    (p.name, if 0 < p.count then p.total / (p.count : ℚ) else 0))

/-- One step of the top-performer loop: `if (avg > topAvg) { ... }`. -/
def topStep (acc p : String × ℚ) : String × ℚ :=
  if acc.2 < p.2 then p else acc

/-- The top-performer loop, starting from `topPerformer = ''`, `topAvg = 0`. -/
def topPerformerOf (yourBowls : List Bowl) : String × ℚ :=
  (playerAvgsOf yourBowls).foldl topStep ("", 0)

/-- `gameBowls = allBowls.filter(b => b.gameId === game.id)`. -/
def gameBowlsOf (allBowls : List Bowl) (game : Game) : List Bowl :=
  allBowls.filter (fun b => decide (b.gameId = game.id))

/-- `yourBowls = gameBowls.filter(b => b.team === 'yours')`. -/
def yourBowlsOf (allBowls : List Bowl) (game : Game) : List Bowl :=
  (gameBowlsOf allBowls game).filter (fun b => decide (b.team = "yours"))

/-- The summary row built for one game. -/
def summaryOf (allBowls : List Bowl) (game : Game) : Summary :=
  let gameBowls := gameBowlsOf allBowls game
  let yourBowls := yourBowlsOf allBowls game
  let scoredBowls := yourBowls.filter (fun b => b.score.isSome)
  let avgScore : ℚ :=
    if scoredBowls.length = 0 then 0
    else (scoredBowls.map effScoreOr).sum / scoredBowls.length
  let top := topPerformerOf yourBowls
  { id := game.id
    tournamentId := game.tournamentId
    tournamentName := game.tournamentName.getD ""
    gameNumber := game.gameNumber.getD 0
    format := game.format
    gameType := jsOrS game.gameType "game"
    date := game.date
    players := game.players.getD (game.yourPlayers.getD [])
    opponentName := ((game.opponentPlayers.getD []).headD "")
    totalEnds := totalEndsOf game
    currentEnd := jsOrN game.currentEnd (jsOrN game.totalEnds 21)
    totalBowls := gameBowls.length
    avgScore := round2 avgScore
    topPerformer := top.1
    topAvg := round2 top.2
    completed := game.completed.getD false
    notes := jsOrS game.notes (jsOrS game.gameNotes "") }

/-- `getGameSummaries`: one summary per game, sorted descending by date
(`.sort((a, b) => new Date(b.date) - new Date(a.date))`, stable). -/
def getGameSummaries (allGames : List Game) (allBowls : List Bowl) : List Summary :=
  List.insertionSort (keyGE (fun s : Summary => s.date))
    (allGames.map (summaryOf allBowls))

/-! ## The form indicator -/

/-- The four displayed form states. `undetermined` is the `--`
placeholder of the player dashboard. -/
inductive Form where
  | rising
  | declining
  | steady
  | undetermined
  deriving DecidableEq

/-- The trichotomy on `recent - overall`: `> 0.3` rising, `< -0.3`
declining, otherwise steady. -/
def formTrichotomy (recent overall : ℚ) : Form :=
  if 3/10 < recent - overall then Form.rising
  else if recent - overall < -(3/10) then Form.declining
  else Form.steady

/-- The most recent game average,
`gamePerformance[gamePerformance.length - 1]?.avgScore || 0`. -/
def lastGameAvg (gamePerformance : List GamePerf) : ℚ :=
  jsOrQ (gamePerformance.getLast?.map (fun e => e.avgScore)) 0

/-- The form icon of the team-comparison table (`renderComparisonTable`):
with fewer than 2 games the recent average is *taken to be the overall
average*, so the diff is 0 and the icon is the steady one. -/
def comparisonForm (gamePerformance : List GamePerf) (avgScore : ℚ) : Form :=
  let recentPerf :=
    if 2 ≤ gamePerformance.length then lastGameAvg gamePerformance else avgScore
  formTrichotomy recentPerf avgScore

/-- The form indicator of the player dashboard (`renderPlayerStatsHTML`):
with fewer than 2 games it is the `--` placeholder. -/
def dashboardForm (gamePerformance : List GamePerf) (avgScore : ℚ) : Form :=
  if 2 ≤ gamePerformance.length then
    formTrichotomy (lastGameAvg gamePerformance) avgScore
  else Form.undetermined

/-! ## Shared helper lemmas -/

theorem round2_zero : round2 0 = 0 := by
  norm_num [round2]

theorem lookupCache_append_self (c : Cache) (k : String) (s : Stats)
    (h : lookupCache c k = none) : lookupCache (c ++ [(k, s)]) k = some s := by
  induction c with
  | nil => simp [lookupCache, List.find?]
  | cons e t ih =>
    simp only [lookupCache, List.find?, List.cons_append] at h ⊢
    by_cases he : e.1 = k
    · simp [he] at h
    · simp only [decide_eq_true_eq, he, decide_False] at h ⊢
      exact ih h

/-! ## C1 -/

/-- C1: for every participant id, attempt log, match log and optional
match-id filter, if no attempts have that participant id with team side
`own` (after applying the optional match filter), `getPlayerStats`'s
computation returns null rather than raising an error or returning a
zero-filled statistics object. -/
theorem computePlayerStatistics_noData_null (playerName : String)
    (filterGameId : Option String) (allBowls : List Bowl) (allGames : List Game)
    (h : matchingBowls playerName filterGameId allBowls = []) :
    computePlayerStatistics playerName allBowls allGames filterGameId = none := by
  simp [computePlayerStatistics, h]

/-- Witness for C1 at a concrete input: the attempt log holds only an
opponent attempt, so the filter is empty and the result is null. -/
theorem computePlayerStatistics_noData_null_witness :
    computePlayerStatistics "A"
      [{ gameId := "g1", playerId := "A", team := "theirs", endNumber := 1,
         score := some 2, scoreValue := none, distance := none,
         distanceInFeet := none, hand := none, position := none,
         resultCategory := none, direction := none }] [] none = none :=
  computePlayerStatistics_noData_null "A" none _ [] rfl

/-! ## C2 -/

/-- A matching attempt with no score at all (both score fields missing). -/
def noScoreBowl : Bowl :=
  { gameId := "g1", playerId := "A", team := "yours", endNumber := 1,
    score := none, scoreValue := none, distance := none, distanceInFeet := none,
    hand := none, position := none, resultCategory := none, direction := none }

/-- Counterexample to C2 as stated: with a single matching attempt whose
score is missing, the attempt is counted in `totalBowls`, but the score
distribution does *not* count it as score 0 — every bucket (including
bucket 0) stays empty, exactly like the average, so the two treatments do
not differ there. -/
theorem scoreDistribution_drops_missing_score :
    (computePlayerStatistics "A" [noScoreBowl] [] none).map
        (fun st => st.totalBowls) = some 1 ∧
    (computePlayerStatistics "A" [noScoreBowl] [] none).map
        (fun st => st.scoreDistribution 0) = some 0 ∧
    (computePlayerStatistics "A" [noScoreBowl] [] none).map
        (fun st => st.avgScore) = some 0 := by
  refine ⟨rfl, rfl, ?_⟩
  show some (round2 (meanQ (scoresOf [noScoreBowl]))) = some 0
  norm_num [scoresOf, scoredOf, noScoreBowl, meanQ, List.filter, round2]

/-- C2 as amended: an attempt with no score is excluded from the
numerator and denominator of the average *and* from the score
distribution (it is not bucketed as 0); it does, however, count (with
effective score 0) in its distance zone's total, so only the zone
denominators see it. -/
theorem missingScore_treatment (l₁ l₂ : List Bowl) (b : Bowl)
    (hs : b.score = none) (hsv : b.scoreValue = none) :
    meanQ (scoresOf (l₁ ++ b :: l₂)) = meanQ (scoresOf (l₁ ++ l₂)) ∧
    (∀ s : ℚ, scoreDistOf (l₁ ++ b :: l₂) s = scoreDistOf (l₁ ++ l₂) s) ∧
    zoneTotal (l₁ ++ b :: l₂) (zoneOf b) = zoneTotal (l₁ ++ l₂) (zoneOf b) + 1 ∧
    zoneGood (l₁ ++ b :: l₂) (zoneOf b) = zoneGood (l₁ ++ l₂) (zoneOf b) := by
  have hscored : scoredOf (l₁ ++ b :: l₂) = scoredOf (l₁ ++ l₂) := by
    simp [scoredOf, List.filter_append, List.filter_cons, hs]
  refine ⟨by rw [scoresOf, hscored]; rfl, fun s => by rw [scoreDistOf, hscored]; rfl, ?_, ?_⟩
  · simp only [zoneTotal, List.filter_append, List.filter_cons, decide_True,
      decide_eq_true_eq, if_true, List.length_append, List.length_cons]
    omega
  · have hb : effScoreTern b = 0 := by simp [effScoreTern, hs, hsv, jsOrQ]
    simp [zoneGood, List.filter_append, List.filter_cons, hb]

/-- Witness for C2's amended statement at a concrete input. -/
theorem missingScore_treatment_witness :
    meanQ (scoresOf ([] ++ noScoreBowl :: [])) = meanQ (scoresOf ([] ++ [])) ∧
    (∀ s : ℚ, scoreDistOf ([] ++ noScoreBowl :: []) s = scoreDistOf ([] ++ []) s) ∧
    zoneTotal ([] ++ noScoreBowl :: []) (zoneOf noScoreBowl) =
      zoneTotal ([] ++ []) (zoneOf noScoreBowl) + 1 ∧
    zoneGood ([] ++ noScoreBowl :: []) (zoneOf noScoreBowl) =
      zoneGood ([] ++ []) (zoneOf noScoreBowl) :=
  missingScore_treatment [] [] noScoreBowl rfl rfl

/-! ## C9 -/

/-- A single game-performance entry for the C9 counterexample. -/
def singleGamePerf : GamePerf :=
  { gameId := "g1", gameName := "Game 1", date := some 0, avgScore := 2,
    bowlCount := 6, format := "triples" }

/-- Counterexample to C9 as stated: in the team-comparison table a
participant with a single match gets the *steady* indicator (one of the
three trend values), not an "undetermined" one. -/
theorem comparisonForm_single_match_steady :
    comparisonForm [singleGamePerf] 2 = Form.steady ∧
    Form.steady ≠ Form.undetermined := by
  refine ⟨?_, by decide⟩
  norm_num [comparisonForm, formTrichotomy]

/-- C9 as amended: with at least 2 matches both renderings use the
trichotomy on (most-recent match average − overall average) with the
±0.3 thresholds; with fewer than 2 matches the comparison table shows the
steady indicator (the recent average is substituted by the overall
average, so the difference is 0), while only the player dashboard shows
the "undetermined" placeholder. -/
theorem form_indicator_characterization (gp : List GamePerf) (avg : ℚ) :
    (2 ≤ gp.length →
      comparisonForm gp avg = formTrichotomy (lastGameAvg gp) avg ∧
      dashboardForm gp avg = formTrichotomy (lastGameAvg gp) avg) ∧
    (gp.length < 2 →
      comparisonForm gp avg = Form.steady ∧
      dashboardForm gp avg = Form.undetermined) ∧
    (∀ recent : ℚ,
      (3/10 < recent - avg → formTrichotomy recent avg = Form.rising) ∧
      (recent - avg < -(3/10) → formTrichotomy recent avg = Form.declining) ∧
      (-(3/10) ≤ recent - avg → recent - avg ≤ 3/10 →
        formTrichotomy recent avg = Form.steady)) := by
  refine ⟨fun h2 => ⟨by simp [comparisonForm, h2], by simp [dashboardForm, h2]⟩,
    fun h1 => ⟨?_, by simp [dashboardForm, Nat.not_le.mpr h1]⟩, fun recent => ?_⟩
  · have : ¬ 2 ≤ gp.length := Nat.not_le.mpr h1
    simp only [comparisonForm, this, if_false]
    norm_num [formTrichotomy]
  · refine ⟨fun h => by simp [formTrichotomy, h], fun h => ?_, fun hl hr => ?_⟩
    · have : ¬ 3/10 < recent - avg := by linarith
      simp [formTrichotomy, this, h]
    · have h1 : ¬ 3/10 < recent - avg := by linarith
      have h2 : ¬ recent - avg < -(3/10) := by linarith
      simp [formTrichotomy, h1, h2]

/-! ## C10 -/

/-- C10: the cache maps keys only to non-null statistics records: on a
miss, a null computation leaves the cache unchanged (so "no data" is
recomputed on every call), while a non-null result is memoized under the
composite key; `invalidateAnalyticsCache` resets the cache to empty. -/
theorem analyticsCache_invariant (c : Cache) (playerName : String)
    (filterGameId : Option String) (allBowls : List Bowl) (allGames : List Game) :
    invalidateAnalyticsCache c = [] ∧
    (lookupCache c (cacheKey playerName filterGameId) = none →
      (computePlayerStatistics playerName allBowls allGames filterGameId = none →
        getPlayerStats c playerName filterGameId allBowls allGames = (none, c)) ∧
      (∀ s, computePlayerStatistics playerName allBowls allGames filterGameId = some s →
        getPlayerStats c playerName filterGameId allBowls allGames =
          (some s, c ++ [(cacheKey playerName filterGameId, s)]) ∧
        lookupCache (c ++ [(cacheKey playerName filterGameId, s)])
          (cacheKey playerName filterGameId) = some s)) := by
  refine ⟨rfl, fun hmiss => ⟨fun hnone => ?_, fun s hs => ⟨?_, ?_⟩⟩⟩
  · simp [getPlayerStats, hmiss, hnone]
  · simp [getPlayerStats, hmiss, hs]
  · exact lookupCache_append_self c _ s hmiss

/-! ## C4 -/

/-- A concrete recorded game with no attempts. -/
def lonelyGame : Game :=
  { id := "g1", tournamentId := none, tournamentName := none, gameNumber := some 1,
    format := "triples", gameType := none, date := 0, players := none,
    yourPlayers := none, opponentPlayers := none, endCount := some 21,
    totalEnds := none, currentEnd := none, completed := none, notes := none,
    gameNotes := none }

/-- Counterexample to C4 as stated: with an empty attempt set but one
recorded game, `getGameSummaries` returns one (zero-filled) summary, not
an empty sequence. -/
theorem getGameSummaries_emptyBowls_not_nil :
    getGameSummaries [lonelyGame] [] ≠ [] ∧
    (getGameSummaries [lonelyGame] []).length = 1 := by
  have hl : (getGameSummaries [lonelyGame] []).length = 1 := rfl
  exact ⟨fun h => absurd (h ▸ hl) (by decide), hl⟩

/-- C4 as amended: with an empty attempt set `getGameSummaries` returns
one summary per recorded game — zero attempts, average 0, no top
performer — and in particular the empty sequence exactly when the match
log is empty too; it never errors. -/
theorem getGameSummaries_emptyBowls (allGames : List Game) :
    (getGameSummaries allGames []).length = allGames.length ∧
    (∀ s ∈ getGameSummaries allGames [], s.totalBowls = 0 ∧ s.avgScore = 0 ∧
      s.topPerformer = "" ∧ s.topAvg = 0) ∧
    (allGames = [] → getGameSummaries allGames [] = []) := by
  refine ⟨?_, fun s hs => ?_, fun h => by subst h; rfl⟩
  · rw [getGameSummaries,
      (List.perm_insertionSort (keyGE (fun s : Summary => s.date)) _).length_eq,
      List.length_map]
  · rw [getGameSummaries, List.mem_insertionSort, List.mem_map] at hs
    obtain ⟨g, _, rfl⟩ := hs
    refine ⟨rfl, ?_, rfl, ?_⟩ <;>
      simp [summaryOf, gameBowlsOf, yourBowlsOf, topPerformerOf, playerAvgsOf,
        playerScoresList, round2_zero]

/-! ## C5 -/

/-- C5: an attempt is clutch exactly when its own game is on record and
its round number lies within the final 3 rounds of that game's total
round count (per-match total); for a 21-round game and in-range round
numbers that means exactly rounds 19, 20 and 21; `clutchAvg` is the mean
effective score of the scored clutch attempts rounded to 2 decimals, and
0 when none qualify. -/
theorem clutchAvg_final_three_rounds (playerBowls : List Bowl) (allGames : List Game) :
    (∀ b, b ∈ clutchBowlsOf playerBowls allGames ↔
      b ∈ playerBowls ∧ ∃ g, findGame allGames b.gameId = some g ∧
        (totalEndsOf g : Int) - 3 < (b.endNumber : Int)) ∧
    (∀ b ∈ playerBowls, ∀ g, findGame allGames b.gameId = some g →
      totalEndsOf g = 21 → b.endNumber ≤ 21 →
      (b ∈ clutchBowlsOf playerBowls allGames ↔
        (b.endNumber = 19 ∨ b.endNumber = 20 ∨ b.endNumber = 21))) ∧
    (clutchBowlsOf playerBowls allGames = [] → clutchAvgOf playerBowls allGames = 0) ∧
    (clutchScoredOf playerBowls allGames = [] → clutchAvgOf playerBowls allGames = 0) ∧
    (clutchScoredOf playerBowls allGames ≠ [] →
      clutchAvgOf playerBowls allGames =
        round2 (((clutchScoredOf playerBowls allGames).map effScoreOr).sum /
          ((clutchScoredOf playerBowls allGames).length : ℚ))) := by
  have hmem : ∀ b, b ∈ clutchBowlsOf playerBowls allGames ↔
      b ∈ playerBowls ∧ ∃ g, findGame allGames b.gameId = some g ∧
        (totalEndsOf g : Int) - 3 < (b.endNumber : Int) := by
    intro b
    rw [clutchBowlsOf, List.mem_filter]
    constructor
    · rintro ⟨hb, hc⟩
      refine ⟨hb, ?_⟩
      rw [isClutch] at hc
      cases hg : findGame allGames b.gameId with
      | none => rw [hg] at hc; exact absurd hc (by simp)
      | some g =>
        rw [hg] at hc
        exact ⟨g, rfl, by simpa using hc⟩
    · rintro ⟨hb, g, hg, hlt⟩
      exact ⟨hb, by rw [isClutch, hg]; simpa using hlt⟩
  refine ⟨hmem, fun b hb g hg h21 hle => ?_, fun h => ?_, fun h => ?_, fun h => ?_⟩
  · rw [hmem b]
    constructor
    · rintro ⟨-, g', hg', hlt⟩
      rw [hg] at hg'
      cases hg'
      rw [h21] at hlt
      omega
    · intro hor
      exact ⟨hb, g, hg, by rw [h21]; omega⟩
  · have : clutchScoredOf playerBowls allGames = [] := by
      rw [clutchScoredOf, h]; rfl
    rw [clutchAvgOf]
    simp only [this]
    exact round2_zero
  · rw [clutchAvgOf]
    simp only [h]
    exact round2_zero
  · have hlen : (clutchScoredOf playerBowls allGames).length ≠ 0 :=
      fun hlen => h (List.length_eq_zero.mp hlen)
    simp only [clutchAvgOf]
    rw [if_neg hlen]

/-- A 21-round game for the C5 witness. -/
def clutchGameW : Game :=
  { id := "g1", tournamentId := none, tournamentName := none, gameNumber := some 1,
    format := "triples", gameType := none, date := 0, players := none,
    yourPlayers := none, opponentPlayers := none, endCount := some 21,
    totalEnds := none, currentEnd := none, completed := none, notes := none,
    gameNotes := none }

/-- A scored round-20 attempt for the C5 witness. -/
def clutchBowlW : Bowl :=
  { gameId := "g1", playerId := "A", team := "yours", endNumber := 20,
    score := some 2, scoreValue := none, distance := some 1, distanceInFeet := none,
    hand := none, position := none, resultCategory := none, direction := none }

/-- Witness for C5 at a concrete input: a 21-round game and one scored
attempt in round 20. -/
theorem clutchAvg_final_three_rounds_witness :
    ((∀ b, b ∈ clutchBowlsOf [clutchBowlW] [clutchGameW] ↔
      b ∈ [clutchBowlW] ∧ ∃ g, findGame [clutchGameW] b.gameId = some g ∧
        (totalEndsOf g : Int) - 3 < (b.endNumber : Int)) ∧
    (∀ b ∈ [clutchBowlW], ∀ g, findGame [clutchGameW] b.gameId = some g →
      totalEndsOf g = 21 → b.endNumber ≤ 21 →
      (b ∈ clutchBowlsOf [clutchBowlW] [clutchGameW] ↔
        (b.endNumber = 19 ∨ b.endNumber = 20 ∨ b.endNumber = 21))) ∧
    (clutchBowlsOf [clutchBowlW] [clutchGameW] = [] →
      clutchAvgOf [clutchBowlW] [clutchGameW] = 0) ∧
    (clutchScoredOf [clutchBowlW] [clutchGameW] = [] →
      clutchAvgOf [clutchBowlW] [clutchGameW] = 0) ∧
    (clutchScoredOf [clutchBowlW] [clutchGameW] ≠ [] →
      clutchAvgOf [clutchBowlW] [clutchGameW] =
        round2 (((clutchScoredOf [clutchBowlW] [clutchGameW]).map effScoreOr).sum /
          ((clutchScoredOf [clutchBowlW] [clutchGameW]).length : ℚ)))) :=
  clutchAvg_final_three_rounds [clutchBowlW] [clutchGameW]

/-! ## C6 -/

/-- C6: the three distance zones partition the matching attempts by the
metric distance (feet × 30) at the `< 20` / `< 50` boundaries; each
zone's success rate is (count with score ≥ 3) / total × 100, lies in
[0, 100], and is exactly 0 for an empty zone. -/
theorem distanceSuccessRates_spec (playerBowls : List Bowl) :
    (∀ z, distanceSuccessRates playerBowls z =
      (if zoneTotal playerBowls z = 0 then 0
       else (zoneGood playerBowls z : ℚ) / (zoneTotal playerBowls z : ℚ) * 100)) ∧
    (∀ z, 0 ≤ distanceSuccessRates playerBowls z ∧
      distanceSuccessRates playerBowls z ≤ 100) ∧
    (∀ z, zoneTotal playerBowls z = 0 → distanceSuccessRates playerBowls z = 0) ∧
    zoneTotal playerBowls Zone.close + zoneTotal playerBowls Zone.medium +
      zoneTotal playerBowls Zone.far = playerBowls.length ∧
    (∀ b ∈ playerBowls,
      (zoneOf b = Zone.close ↔ distOf b * 30 < 20) ∧
      (zoneOf b = Zone.medium ↔ 20 ≤ distOf b * 30 ∧ distOf b * 30 < 50) ∧
      (zoneOf b = Zone.far ↔ 50 ≤ distOf b * 30)) := by
  refine ⟨fun z => rfl, fun z => ?_, fun z h => by simp [distanceSuccessRates, h], ?_, ?_⟩
  · by_cases h : zoneTotal playerBowls z = 0
    · simp [distanceSuccessRates, h]
    · have htot : (0 : ℚ) < (zoneTotal playerBowls z : ℚ) := by
        exact_mod_cast Nat.pos_of_ne_zero h
      have hgood : zoneGood playerBowls z ≤ zoneTotal playerBowls z :=
        List.length_filter_le _ _
      constructor
      · simp only [distanceSuccessRates, h, if_false]
        positivity
      · simp only [distanceSuccessRates, h, if_false]
        have hdiv : (zoneGood playerBowls z : ℚ) / (zoneTotal playerBowls z : ℚ) ≤ 1 := by
          rw [div_le_one htot]
          exact_mod_cast hgood
        nlinarith
  · induction playerBowls with
    | nil => rfl
    | cons b t ih =>
      simp only [zoneTotal, List.filter_cons, decide_eq_true_eq, List.length_cons] at ih ⊢
      cases hz : zoneOf b <;> simp [hz] <;> omega
  · intro b _
    unfold zoneOf
    split_ifs with h1 h2 <;> refine ⟨?_, ?_, ?_⟩ <;> simp_all <;> linarith

/-! ## C3: characterizing head and last of the stable descending sort -/

theorem orderedInsert_ne_nil {α : Type} (r : α → α → Prop) [DecidableRel r]
    (a : α) (l : List α) : List.orderedInsert r a l ≠ [] := by
  cases l with
  | nil => simp
  | cons b t =>
    simp only [List.orderedInsert]
    split <;> simp

/-- The head of the stable descending sort is the first element of the
input attaining the maximal key: everything before it is strictly
smaller, everything after it is no larger. -/
theorem head?_insertionSort_firstMax {α β : Type} [LinearOrder β] (f : α → β) :
    ∀ l : List α, l ≠ [] →
      ∃ m l₁ l₂, (List.insertionSort (keyGE f) l).head? = some m ∧
        l = l₁ ++ m :: l₂ ∧ (∀ x ∈ l₁, f x < f m) ∧ (∀ x ∈ l₂, f x ≤ f m) := by
  intro l
  induction l with
  | nil => intro h; exact absurd rfl h
  | cons a t ih =>
    intro _
    cases t with
    | nil =>
      exact ⟨a, [], [], by simp [List.insertionSort, List.orderedInsert],
        rfl, by simp, by simp⟩
    | cons b t' =>
      obtain ⟨m, l₁, l₂, hh, hdec, h₁, h₂⟩ := ih (by simp)
      obtain ⟨s', hs⟩ : ∃ s', List.insertionSort (keyGE f) (b :: t') = m :: s' := by
        cases hsort : List.insertionSort (keyGE f) (b :: t') with
        | nil => rw [hsort] at hh; exact absurd hh (by simp)
        | cons y ys =>
          rw [hsort] at hh
          simp only [List.head?_cons, Option.some.injEq] at hh
          exact ⟨ys, by rw [hh]⟩
      have hstep : List.insertionSort (keyGE f) (a :: b :: t') =
          List.orderedInsert (keyGE f) a (List.insertionSort (keyGE f) (b :: t')) := rfl
      by_cases hcmp : f m ≤ f a
      · refine ⟨a, [], b :: t', ?_, rfl, by simp, ?_⟩
        · rw [hstep, hs,
            List.orderedInsert_of_le (keyGE f) s' (show keyGE f a m from hcmp)]
          rfl
        · intro x hx
          rw [hdec] at hx
          rcases List.mem_append.mp hx with hx | hx
          · exact le_trans (le_of_lt (h₁ x hx)) hcmp
          · rcases List.mem_cons.mp hx with rfl | hx
            · exact hcmp
            · exact le_trans (h₂ x hx) hcmp
      · refine ⟨m, a :: l₁, l₂, ?_, by rw [List.cons_append, hdec], ?_, h₂⟩
        · have hoi : List.orderedInsert (keyGE f) a (m :: s') =
              m :: List.orderedInsert (keyGE f) a s' := by
            simp only [List.orderedInsert]
            rw [if_neg (show ¬ keyGE f a m from hcmp)]
          rw [hstep, hs, hoi]
          rfl
        · intro x hx
          rcases List.mem_cons.mp hx with rfl | hx
          · exact not_le.mp hcmp
          · exact h₁ x hx

theorem getLast?_orderedInsert {α β : Type} [LinearOrder β] (f : α → β) (a : α) :
    ∀ s : List α, s.Pairwise (keyGE f) →
      (List.orderedInsert (keyGE f) a s).getLast? =
        some (s.getLast?.elim a (fun z => if f a < f z then a else z)) := by
  intro s
  induction s with
  | nil => intro _; simp [List.orderedInsert]
  | cons y ys ih =>
    intro hp
    rw [List.pairwise_cons] at hp
    obtain ⟨hy, hp'⟩ := hp
    by_cases hc : f y ≤ f a
    · simp only [List.orderedInsert]
      rw [if_pos (show keyGE f a y from hc)]
      rw [List.getLast?_cons_cons]
      cases hz : (y :: ys).getLast? with
      | none => exact absurd hz (by simp)
      | some z =>
        have hzmem : z ∈ y :: ys := List.mem_of_getLast?_eq_some hz
        have hzy : f z ≤ f y := by
          rcases List.mem_cons.mp hzmem with rfl | hmem
          · exact le_refl _
          · exact hy z hmem
        have hnot : ¬ f a < f z := not_lt.mpr (le_trans hzy hc)
        simp [hz, hnot]
    · simp only [List.orderedInsert]
      rw [if_neg (show ¬ keyGE f a y from hc)]
      cases ys with
      | nil =>
        have hlt : f a < f y := not_le.mp hc
        simp [List.orderedInsert, hlt]
      | cons w ws =>
        obtain ⟨u, us, hu⟩ : ∃ u us,
            List.orderedInsert (keyGE f) a (w :: ws) = u :: us := by
          cases h : List.orderedInsert (keyGE f) a (w :: ws) with
          | nil => exact absurd h (orderedInsert_ne_nil _ _ _)
          | cons u us => exact ⟨u, us, rfl⟩
        calc (y :: List.orderedInsert (keyGE f) a (w :: ws)).getLast?
            = (List.orderedInsert (keyGE f) a (w :: ws)).getLast? := by
              rw [hu, List.getLast?_cons_cons]
          _ = some ((w :: ws).getLast?.elim a (fun z => if f a < f z then a else z)) :=
              ih hp'
          _ = some ((y :: w :: ws).getLast?.elim a (fun z => if f a < f z then a else z)) := by
              rw [List.getLast?_cons_cons]

/-- The last element of the stable descending sort is the last element of
the input attaining the minimal key: everything before it is no smaller,
everything after it is strictly larger. -/
theorem getLast?_insertionSort_lastMin {α β : Type} [LinearOrder β] (f : α → β) :
    ∀ l : List α, l ≠ [] →
      ∃ m l₁ l₂, (List.insertionSort (keyGE f) l).getLast? = some m ∧
        l = l₁ ++ m :: l₂ ∧ (∀ x ∈ l₁, f m ≤ f x) ∧ (∀ x ∈ l₂, f m < f x) := by
  intro l
  induction l with
  | nil => intro h; exact absurd rfl h
  | cons a t ih =>
    intro _
    cases t with
    | nil =>
      exact ⟨a, [], [], by simp [List.insertionSort, List.orderedInsert],
        rfl, by simp, by simp⟩
    | cons b t' =>
      obtain ⟨m, l₁, l₂, hlast, hdec, h₁, h₂⟩ := ih (by simp)
      have hp : (List.insertionSort (keyGE f) (b :: t')).Pairwise (keyGE f) :=
        List.sorted_insertionSort (keyGE f) (b :: t')
      have hkey := getLast?_orderedInsert f a _ hp
      rw [hlast] at hkey
      have hstep : List.insertionSort (keyGE f) (a :: b :: t') =
          List.orderedInsert (keyGE f) a (List.insertionSort (keyGE f) (b :: t')) := rfl
      by_cases hc : f a < f m
      · refine ⟨a, [], b :: t', ?_, rfl, by simp, ?_⟩
        · rw [hstep, hkey]
          simp [hc]
        · intro x hx
          rw [hdec] at hx
          rcases List.mem_append.mp hx with hx | hx
          · exact lt_of_lt_of_le hc (h₁ x hx)
          · rcases List.mem_cons.mp hx with rfl | hx
            · exact hc
            · exact lt_trans hc (h₂ x hx)
      · refine ⟨m, a :: l₁, l₂, ?_, by rw [List.cons_append, hdec], ?_, h₂⟩
        · rw [hstep, hkey]
          simp [hc]
        · intro x hx
          rcases List.mem_cons.mp hx with rfl | hx
          · exact not_lt.mp hc
          · exact h₁ x hx

/-- Two tied ends (mean 1 each) for the C3 counterexample, in aggregation
order: round 1 first, round 2 second. -/
def tieBowls : List Bowl :=
  [{ gameId := "g1", playerId := "A", team := "yours", endNumber := 1,
     score := some 1, scoreValue := none, distance := none, distanceInFeet := none,
     hand := none, position := none, resultCategory := none, direction := none },
   { gameId := "g1", playerId := "A", team := "yours", endNumber := 2,
     score := some 1, scoreValue := none, distance := none, distanceInFeet := none,
     hand := none, position := none, resultCategory := none, direction := none }]

/-- Counterexample to C3 as stated: with two ends of equal mean score,
`bestEnd` is the first-encountered group but `worstEnd` is the
*last*-encountered group, not the first. -/
theorem worstEnd_tie_goes_to_last :
    (endAvgsOf tieBowls).map (fun e => (e.endNumber, e.avg)) = [(1, 1), (2, 1)] ∧
    (bestEndOf tieBowls).map (fun e => e.endNumber) = some 1 ∧
    (worstEndOf tieBowls).map (fun e => e.endNumber) = some 2 := by
  have h1 : endAvgsOf tieBowls =
      [{ gameId := "g1", endNumber := 1, total := 1, count := 1, avg := 1 },
       { gameId := "g1", endNumber := 2, total := 1, count := 1, avg := 1 }] := by
    norm_num [endAvgsOf, endScoresList, tieBowls, List.foldl, effScoreOr, jsOrQ]
  have h2 : sortedEndAvgsOf tieBowls =
      [{ gameId := "g1", endNumber := 1, total := 1, count := 1, avg := 1 },
       { gameId := "g1", endNumber := 2, total := 1, count := 1, avg := 1 }] := by
    rw [sortedEndAvgsOf, h1]
    norm_num [List.insertionSort, List.orderedInsert, keyGE]
  refine ⟨?_, ?_, ?_⟩
  · rw [h1]; norm_num
  · rw [bestEndOf, h2]; rfl
  · rw [worstEndOf, h2]; rfl

/-- C3 as amended: over a non-empty set of matching attempts, `bestEnd`
is the (match id, round) group with the highest mean score, ties resolved
in favour of the group *first* encountered in aggregation order, while
`worstEnd` is the group with the lowest mean score, ties resolved in
favour of the group *last* encountered in aggregation order. -/
theorem bestWorstEnd_characterization (playerBowls : List Bowl)
    (h : endAvgsOf playerBowls ≠ []) :
    (∃ m l₁ l₂, bestEndOf playerBowls = some m ∧
      endAvgsOf playerBowls = l₁ ++ m :: l₂ ∧
      (∀ x ∈ l₁, x.avg < m.avg) ∧ (∀ x ∈ l₂, x.avg ≤ m.avg)) ∧
    (∃ m l₁ l₂, worstEndOf playerBowls = some m ∧
      endAvgsOf playerBowls = l₁ ++ m :: l₂ ∧
      (∀ x ∈ l₁, m.avg ≤ x.avg) ∧ (∀ x ∈ l₂, m.avg < x.avg)) :=
  ⟨head?_insertionSort_firstMax (fun e : EndAvg => e.avg) (endAvgsOf playerBowls) h,
   getLast?_insertionSort_lastMin (fun e : EndAvg => e.avg) (endAvgsOf playerBowls) h⟩

/-- Two ends with distinct means for the C3 witness. -/
def bestWorstBowlsW : List Bowl :=
  [{ gameId := "g1", playerId := "A", team := "yours", endNumber := 1,
     score := some 3, scoreValue := none, distance := none, distanceInFeet := none,
     hand := none, position := none, resultCategory := none, direction := none },
   { gameId := "g1", playerId := "A", team := "yours", endNumber := 2,
     score := some 1, scoreValue := none, distance := none, distanceInFeet := none,
     hand := none, position := none, resultCategory := none, direction := none }]

/-- Witness for C3's amended statement at a concrete input (two ends with
distinct means). -/
theorem bestWorstEnd_characterization_witness :
    (∃ m l₁ l₂, bestEndOf bestWorstBowlsW = some m ∧
      endAvgsOf bestWorstBowlsW = l₁ ++ m :: l₂ ∧
      (∀ x ∈ l₁, x.avg < m.avg) ∧ (∀ x ∈ l₂, x.avg ≤ m.avg)) ∧
    (∃ m l₁ l₂, worstEndOf bestWorstBowlsW = some m ∧
      endAvgsOf bestWorstBowlsW = l₁ ++ m :: l₂ ∧
      (∀ x ∈ l₁, m.avg ≤ x.avg) ∧ (∀ x ∈ l₂, m.avg < x.avg)) :=
  bestWorstEnd_characterization bestWorstBowlsW (by
    intro h
    have h2 : (endAvgsOf bestWorstBowlsW).length = 2 := rfl
    rw [h] at h2
    exact absurd h2 (by decide))

/-! ## C8: characterizing the top-performer loop -/

theorem foldl_topStep_of_all_le :
    ∀ (l : List (String × ℚ)) (acc : String × ℚ),
      (∀ p ∈ l, p.2 ≤ acc.2) → l.foldl topStep acc = acc := by
  intro l
  induction l with
  | nil => intro acc _; rfl
  | cons p t ih =>
    intro acc h
    rw [List.foldl_cons,
      show topStep acc p = acc from
        by rw [topStep, if_neg (not_lt.mpr (h p (List.mem_cons_self p t)))]]
    exact ih acc (fun q hq => h q (List.mem_cons_of_mem p hq))

theorem foldl_topStep_of_exists_gt :
    ∀ (l : List (String × ℚ)) (acc : String × ℚ),
      (∃ p ∈ l, acc.2 < p.2) →
      ∃ l₁ m l₂, l = l₁ ++ m :: l₂ ∧ l.foldl topStep acc = m ∧ acc.2 < m.2 ∧
        (∀ y ∈ l₁, y.2 < m.2) ∧ (∀ y ∈ l₂, y.2 ≤ m.2) := by
  intro l
  induction l with
  | nil =>
    rintro acc ⟨p, hp, -⟩
    exact absurd hp (List.not_mem_nil p)
  | cons p t ih =>
    rintro acc hex
    rw [List.foldl_cons]
    by_cases hc : acc.2 < p.2
    · rw [show topStep acc p = p from by rw [topStep, if_pos hc]]
      by_cases hall : ∀ y ∈ t, y.2 ≤ p.2
      · exact ⟨[], p, t, rfl, foldl_topStep_of_all_le t p hall, hc, by simp, hall⟩
      · push_neg at hall
        obtain ⟨l₁, m, l₂, hdec, hfold, hgt, h₁, h₂⟩ := ih p hall
        refine ⟨p :: l₁, m, l₂, by rw [List.cons_append, hdec], hfold,
          lt_trans hc hgt, ?_, h₂⟩
        intro y hy
        rcases List.mem_cons.mp hy with rfl | hy'
        · exact hgt
        · exact h₁ y hy'
    · rw [show topStep acc p = acc from by rw [topStep, if_neg hc]]
      have hex' : ∃ q ∈ t, acc.2 < q.2 := by
        obtain ⟨q, hq, hgt⟩ := hex
        rcases List.mem_cons.mp hq with rfl | hq'
        · exact absurd hgt hc
        · exact ⟨q, hq', hgt⟩
      obtain ⟨l₁, m, l₂, hdec, hfold, hgt, h₁, h₂⟩ := ih acc hex'
      refine ⟨p :: l₁, m, l₂, by rw [List.cons_append, hdec], hfold, hgt, ?_, h₂⟩
      intro y hy
      rcases List.mem_cons.mp hy with rfl | hy'
      · exact lt_of_le_of_lt (not_lt.mp hc) hgt
      · exact h₁ y hy'

/-- A single own-team attempt scoring 0, and its game, for the C8
counterexample. -/
def zeroScoreBowl : Bowl :=
  { gameId := "g1", playerId := "A", team := "yours", endNumber := 1,
    score := some 0, scoreValue := none, distance := none, distanceInFeet := none,
    hand := none, position := none, resultCategory := none, direction := none }

/-- Counterexample to C8 as stated: participant `A` is the own-team
participant with the highest mean (0), yet the summary's top performer is
the empty-string sentinel, because a participant only ever replaces the
initial `('', 0)` accumulator with a *strictly greater* average. -/
theorem topPerformer_zero_average_sentinel :
    playerAvgsOf [zeroScoreBowl] = [("A", 0)] ∧
    topPerformerOf [zeroScoreBowl] = ("", 0) ∧
    (getGameSummaries [lonelyGame] [zeroScoreBowl]).map (fun s => s.topPerformer) =
      [""] := by
  have h1 : playerAvgsOf [zeroScoreBowl] = [("A", 0)] := by
    norm_num [playerAvgsOf, playerScoresList, zeroScoreBowl, List.foldl,
      effScoreOr, jsOrQ]
  have h2 : topPerformerOf [zeroScoreBowl] = ("", 0) := by
    rw [topPerformerOf, h1]
    norm_num [List.foldl, topStep]
  refine ⟨h1, h2, ?_⟩
  have hyb : yourBowlsOf [zeroScoreBowl] lonelyGame = [zeroScoreBowl] := rfl
  have : (summaryOf [zeroScoreBowl] lonelyGame).topPerformer = "" := by
    show (topPerformerOf (yourBowlsOf [zeroScoreBowl] lonelyGame)).1 = ""
    rw [hyb, h2]
  simpa [getGameSummaries, List.insertionSort, List.orderedInsert] using this

/-- C8 as amended: in every match summary the top performer is the
own-team participant with the highest per-participant mean score,
ties resolved in favour of the participant first encountered in
iteration order (a later participant replaces the current one only with
a strictly greater average) — *provided* some participant has a strictly
positive average; when every average is ≤ 0 the top performer is the
empty-string sentinel with average 0. -/
theorem topPerformer_characterization (allGames : List Game) (allBowls : List Bowl) :
    ∀ s ∈ getGameSummaries allGames allBowls, ∃ g ∈ allGames,
      s = summaryOf allBowls g ∧
      s.topPerformer = (topPerformerOf (yourBowlsOf allBowls g)).1 ∧
      s.topAvg = round2 (topPerformerOf (yourBowlsOf allBowls g)).2 ∧
      ((∀ p ∈ playerAvgsOf (yourBowlsOf allBowls g), p.2 ≤ 0) →
        topPerformerOf (yourBowlsOf allBowls g) = ("", 0)) ∧
      ((∃ p ∈ playerAvgsOf (yourBowlsOf allBowls g), 0 < p.2) →
        ∃ l₁ l₂, playerAvgsOf (yourBowlsOf allBowls g) =
          l₁ ++ topPerformerOf (yourBowlsOf allBowls g) :: l₂ ∧
          0 < (topPerformerOf (yourBowlsOf allBowls g)).2 ∧
          (∀ y ∈ l₁, y.2 < (topPerformerOf (yourBowlsOf allBowls g)).2) ∧
          (∀ y ∈ l₂, y.2 ≤ (topPerformerOf (yourBowlsOf allBowls g)).2)) := by
  intro s hs
  rw [getGameSummaries, List.mem_insertionSort, List.mem_map] at hs
  obtain ⟨g, hg, rfl⟩ := hs
  refine ⟨g, hg, rfl, rfl, rfl, fun hall => ?_, fun hex => ?_⟩
  · exact foldl_topStep_of_all_le _ ("", 0) hall
  · obtain ⟨l₁, m, l₂, hdec, hfold, hgt, h₁, h₂⟩ :=
      foldl_topStep_of_exists_gt (playerAvgsOf (yourBowlsOf allBowls g)) ("", 0) hex
    have hm : topPerformerOf (yourBowlsOf allBowls g) = m := hfold
    rw [hm]
    exact ⟨l₁, l₂, hdec, hgt, h₁, h₂⟩

/-- Witness for C8's amended statement: one game, one own-team attempt
scoring 3. -/
theorem topPerformer_characterization_witness :
    ∃ g ∈ [clutchGameW], summaryOf [clutchBowlW] clutchGameW = summaryOf [clutchBowlW] g ∧
      (summaryOf [clutchBowlW] clutchGameW).topPerformer =
        (topPerformerOf (yourBowlsOf [clutchBowlW] g)).1 ∧
      (summaryOf [clutchBowlW] clutchGameW).topAvg =
        round2 (topPerformerOf (yourBowlsOf [clutchBowlW] g)).2 ∧
      ((∀ p ∈ playerAvgsOf (yourBowlsOf [clutchBowlW] g), p.2 ≤ 0) →
        topPerformerOf (yourBowlsOf [clutchBowlW] g) = ("", 0)) ∧
      ((∃ p ∈ playerAvgsOf (yourBowlsOf [clutchBowlW] g), 0 < p.2) →
        ∃ l₁ l₂, playerAvgsOf (yourBowlsOf [clutchBowlW] g) =
          l₁ ++ topPerformerOf (yourBowlsOf [clutchBowlW] g) :: l₂ ∧
          0 < (topPerformerOf (yourBowlsOf [clutchBowlW] g)).2 ∧
          (∀ y ∈ l₁, y.2 < (topPerformerOf (yourBowlsOf [clutchBowlW] g)).2) ∧
          (∀ y ∈ l₂, y.2 ≤ (topPerformerOf (yourBowlsOf [clutchBowlW] g)).2)) := by
  have hmem : summaryOf [clutchBowlW] clutchGameW ∈
      getGameSummaries [clutchGameW] [clutchBowlW] := by
    rw [show getGameSummaries [clutchGameW] [clutchBowlW] =
      [summaryOf [clutchBowlW] clutchGameW] from rfl]
    exact List.mem_singleton.mpr rfl
  have h := topPerformer_characterization [clutchGameW] [clutchBowlW]
    (summaryOf [clutchBowlW] clutchGameW) hmem
  obtain ⟨g, hg, heq, h1, h2, h3, h4⟩ := h
  exact ⟨g, hg, heq, h1, h2, h3, h4⟩

/-! ## C7: the consistency statistic -/

theorem varQ_nonneg (l : List ℚ) : 0 ≤ varQ l := by
  rw [varQ]
  split
  · exact le_refl 0
  · refine div_nonneg (List.sum_nonneg ?_) (by positivity)
    intro x hx
    obtain ⟨s, -, rfl⟩ := List.mem_map.mp hx
    positivity

/-- The rounded standard deviation is 0 exactly when the variance is
below `1/40000` (i.e. the standard deviation is below `0.005`). -/
theorem consistencyOf_eq_zero_iff (l : List ℚ) :
    consistencyOf l = 0 ↔ varQ l < 1/40000 := by
  have hs : (0 : ℝ) ≤ Real.sqrt ((varQ l : ℚ) : ℝ) := Real.sqrt_nonneg _
  rw [consistencyOf, round2R, div_eq_zero_iff]
  have h100 : ((100 : ℝ) = 0) = False := by norm_num
  rw [h100, or_false, Int.cast_eq_zero, Int.floor_eq_zero_iff, Set.mem_Ico]
  constructor
  · rintro ⟨-, h2⟩
    have h3 : Real.sqrt ((varQ l : ℚ) : ℝ) < 1/200 := by linarith
    rw [Real.sqrt_lt' (by norm_num : (0:ℝ) < 1/200)] at h3
    have h4 : ((varQ l : ℚ) : ℝ) < ((1/40000 : ℚ) : ℝ) := by
      push_cast
      nlinarith
    exact_mod_cast h4
  · intro h
    have hv : ((varQ l : ℚ) : ℝ) < ((1/40000 : ℚ) : ℝ) := by exact_mod_cast h
    have h3 : Real.sqrt ((varQ l : ℚ) : ℝ) < 1/200 := by
      rw [Real.sqrt_lt' (by norm_num : (0:ℝ) < 1/200)]
      push_cast at hv ⊢
      nlinarith
    exact ⟨by linarith, by linarith⟩

theorem sum_of_const (l : List ℚ) (c : ℚ) (h : ∀ x ∈ l, x = c) :
    l.sum = l.length * c := by
  induction l with
  | nil => simp
  | cons a t ih =>
    simp only [List.sum_cons, List.length_cons]
    rw [h a (List.mem_cons_self a t), ih (fun x hx => h x (List.mem_cons_of_mem a hx))]
    push_cast
    ring

theorem varQ_of_all_eq (l : List ℚ) (h : ∀ x ∈ l, ∀ y ∈ l, x = y) : varQ l = 0 := by
  cases l with
  | nil => rfl
  | cons a t =>
    have hall : ∀ x ∈ a :: t, x = a :=
      fun x hx => h x hx a (List.mem_cons_self a t)
    have hlen : ((a :: t).length : ℚ) ≠ 0 := Nat.cast_ne_zero.mpr (by simp)
    have hmean : meanQ (a :: t) = a := by
      rw [meanQ, if_neg (by simp), sum_of_const (a :: t) a hall]
      exact mul_div_cancel_left₀ a hlen
    rw [varQ, if_neg (by simp)]
    have hzero : ((a :: t).map (fun s => (s - meanQ (a :: t)) ^ 2)).sum = 0 := by
      apply List.sum_eq_zero
      intro x hx
      obtain ⟨s, hsmem, rfl⟩ := List.mem_map.mp hx
      rw [hmean, hall s hsmem]
      ring
    rw [hzero, zero_div]

/-- 40001 valid scores — 40000 zeroes and a single 1 — whose population
standard deviation (√40000 / 40001 ≈ 0.004999) rounds to 0. -/
def manyScores : List ℚ := List.replicate 40000 (0 : ℚ) ++ [1]

/-- Counterexample to C7 as stated: `manyScores` contains two different
scores, yet its consistency statistic is exactly 0, because the
population standard deviation is below the 0.005 rounding threshold. -/
theorem consistency_zero_with_unequal_scores :
    consistencyOf manyScores = 0 ∧ (0:ℚ) ∈ manyScores ∧ (1:ℚ) ∈ manyScores ∧
    (0:ℚ) ≠ (1:ℚ) := by
  have hlenN : manyScores.length = 40001 := by
    rw [manyScores, List.length_append, List.length_replicate, List.length_cons,
      List.length_nil]
  have hlen0 : ¬ manyScores.length = 0 := by
    rw [hlenN]
    norm_num
  have hsum : manyScores.sum = 1 := by
    rw [manyScores, List.sum_append, List.sum_replicate, smul_zero, List.sum_cons,
      List.sum_nil]
    norm_num
  have hmean : meanQ manyScores = 1/40001 := by
    rw [meanQ, if_neg hlen0, hsum, hlenN]
    norm_num
  have hvar : varQ manyScores < 1/40000 := by
    rw [varQ, if_neg hlen0, hmean, hlenN]
    have hmap : (manyScores.map (fun s => (s - 1/40001) ^ 2)).sum =
        40000 * ((0 - 1/40001 : ℚ) ^ 2) + (1 - 1/40001) ^ 2 := by
      rw [manyScores, List.map_append, List.map_replicate, List.sum_append,
        List.sum_replicate, nsmul_eq_mul, List.map_cons, List.map_nil, List.sum_cons,
        List.sum_nil]
      norm_num
    rw [hmap]
    push_cast
    norm_num
  refine ⟨(consistencyOf_eq_zero_iff manyScores).mpr hvar, ?_, ?_, by norm_num⟩
  · exact List.mem_append.mpr (Or.inl (List.mem_replicate.mpr ⟨by norm_num, rfl⟩))
  · exact List.mem_append.mpr (Or.inr (List.mem_singleton.mpr rfl))

/-- C7 as amended: the consistency statistic is 0 exactly when the
population variance of the scores is below 1/40000 (standard deviation
below 0.005); in particular it is 0 whenever all the scores are equal,
including the single-element and empty cases, but the converse direction
of the original claim fails for large score sets whose deviation rounds
to 0. -/
theorem consistency_zero_characterization (l : List ℚ) :
    (consistencyOf l = 0 ↔ varQ l < 1/40000) ∧
    ((∀ x ∈ l, ∀ y ∈ l, x = y) → consistencyOf l = 0) := by
  refine ⟨consistencyOf_eq_zero_iff l, fun h => ?_⟩
  rw [consistencyOf_eq_zero_iff, varQ_of_all_eq l h]
  norm_num

end BowlsTracker
